import Mathlib

/-!
Shallow embedding of the video → OLED-animation pipeline of this
repository (the monochrome quantizer `grayscaleAndThreshold`, the bit
packer `packRowMajor`, the frame sampler inside `processVideo`, and the
code generator `generateArduinoCode`), together with theorems settling
the specification's claims about them.

JavaScript `number` arithmetic is modelled over `ℚ`.  Where binary64
rounding is observable (the luminance computation of
`grayscaleAndThreshold`, whose results sit exactly on threshold ties),
the IEEE-754 round-to-nearest-even step is modelled explicitly by
`roundD`; everywhere else the values manipulated are exactly
representable and plain rational arithmetic is exact.
-/

attribute [local semireducible] Rat.add Rat.mul Rat.sub Rat.inv

set_option maxRecDepth 100000

namespace VideoToOled

/-- Round-half-to-even of a rational to an integer (the tie-breaking rule
of IEEE-754 round-to-nearest). -/
def rne (m : ℚ) : ℤ :=
  if m - ⌊m⌋ < 1/2 then ⌊m⌋
  else if 1/2 < m - ⌊m⌋ then ⌊m⌋ + 1
  else if ⌊m⌋ % 2 = 0 then ⌊m⌋ else ⌊m⌋ + 1

/-- Fuel-driven search for the binary exponent of a rational `1 ≤ q`:
the greatest `k` with `2 ^ k ≤ q`.  The fuel only needs to exceed that
exponent; `q.num.natAbs` always does. -/
def ilog2Up : ℕ → ℚ → ℤ
  | 0, _ => 0
  | fuel + 1, q => if 2 ≤ q then 1 + ilog2Up fuel (q / 2) else 0

/-- Fuel-driven search for the binary exponent of a rational `0 < q < 1`:
the greatest `k` (negative) with `2 ^ k ≤ q`.  The fuel only needs to
exceed `-k`; the denominator `q.den` always does. -/
def ilog2Down : ℕ → ℚ → ℤ
  | 0, _ => 0
  | fuel + 1, q => if 1 ≤ q then 0 else -1 + ilog2Down fuel (q * 2)

/-- The greatest `k : ℤ` with `2 ^ k ≤ q`, for positive `q` (an
executable stand-in for `Int.log 2 q`, which the kernel cannot reduce). -/
def ilog2 (q : ℚ) : ℤ :=
  if 1 ≤ q then ilog2Up q.num.natAbs q else ilog2Down q.den q

/-- Round a positive rational to 53 significant bits
(round-to-nearest-even): scale into `[2^52, 2^53)`, round the scaled
significand half-to-even, scale back. -/
def roundDPos (q : ℚ) : ℚ :=
  (rne (q / 2 ^ (ilog2 q - 52)) : ℚ) * 2 ^ (ilog2 q - 52)

/-- Round a rational to the nearest IEEE-754 binary64 value (53-bit
significand, round-to-nearest-even), ignoring overflow and subnormals,
neither of which can occur for the magnitudes arising in this pipeline. -/
def roundD (q : ℚ) : ℚ :=
  if q = 0 then 0 else if 0 < q then roundDPos q else -roundDPos (-q)

/-- The binary64 value denoted by the source literal `0.299`. -/
def lit299 : ℚ := roundD (299 / 1000)

/-- The binary64 value denoted by the source literal `0.587`. -/
def lit587 : ℚ := roundD (587 / 1000)

/-- The binary64 value denoted by the source literal `0.114`. -/
def lit114 : ℚ := roundD (114 / 1000)

/-- The luminance `0.299 * r + 0.587 * g + 0.114 * b` exactly as the
JavaScript engine evaluates it at src/unnamed/part_005:403: three binary64
products, then two binary64 additions, left to right, each individually
rounded. -/
def jsLum (r g b : ℚ) : ℚ :=
  roundD (roundD (roundD (lit299 * r) + roundD (lit587 * g)) + roundD (lit114 * b))

/-- Model of `grayscaleAndThreshold` (src/unnamed/part_005:396-407): walk the RGBA
byte buffer four bytes at a time, emit `1` when the computed luminance is
`>= threshold` and `0` otherwise (alpha ignored).  The source allocates
`data.length / 4` output cells, which is exactly the number of complete
RGBA groups when the buffer length is a multiple of 4 (always true for
canvas image data). -/
def grayscaleAndThreshold : List ℕ → ℚ → List ℕ
  | r :: g :: b :: _a :: rest, threshold =>
      (if threshold ≤ jsLum r g b then 1 else 0) :: grayscaleAndThreshold rest threshold
  | _, _ => []

/-- Model of `out[byteIndex] |= (1 << bitPos)` (src/unnamed/part_005:417).
`List.set` leaves the list unchanged out of range, which never happens
for in-range pixels. -/
def orBitAt (out : List ℕ) (byteIndex bitPos : ℕ) : List ℕ :=
  out.set byteIndex (out.getD byteIndex 0 ||| 1 <<< bitPos)

/-- One iteration of the nested loops of `packRowMajor`
(src/unnamed/part_005:412-419) at pixel `yx = (y, x)`: read
`bits[y*width + x]` (an out-of-range read is `undefined`, hence falsy,
modelled by the default `0`) and, when set, OR `1 << (x % 8)` into byte
`y * bytesPerRow + x / 8` (`x >> 3` and `x & 7` in the source). -/
def packStep (bits : List ℕ) (width bytesPerRow : ℕ) (out : List ℕ) (yx : ℕ × ℕ) : List ℕ :=
  if bits.getD (yx.1 * width + yx.2) 0 ≠ 0 then
    orBitAt out (yx.1 * bytesPerRow + yx.2 / 8) (yx.2 % 8)
  else out

/-- The row-major pixel coordinate sequence
`[(0,0), …, (0,w-1), (1,0), …, (h-1,w-1)]`: the iteration order of the
nested `y`/`x` loops of `packRowMajor`. -/
def coords (height width : ℕ) : List (ℕ × ℕ) :=
  (List.range height).flatMap fun y => (List.range width).map fun x => (y, x)

/-- Model of `packRowMajor` (src/unnamed/part_005:409-421): `bytesPerRow =
Math.ceil(width / 8)`, output zero-initialised at `bytesPerRow * height`
bytes, then the nested loops OR each set pixel into its byte. -/
def packRowMajor (bits : List ℕ) (width height : ℕ) : List ℕ :=
  (coords height width).foldl (packStep bits width ((width + 7) / 8))
    (List.replicate ((width + 7) / 8 * height) 0)

/-- The two display orientations of `ProcessOptions`
(src/unnamed/part_005:365). -/
inductive Orientation
  | horizontal
  | vertical
deriving DecidableEq

/-- Model of `ProcessOptions` (src/unnamed/part_005:367-375).  The numeric fields
supplied by the configuration UI are integers; `targetFrames` and
`threshold` are the two optional fields. -/
structure ProcessOptions where
  width : ℕ
  height : ℕ
  orientation : Orientation
  targetFps : ℚ
  maxFrames : ℕ
  targetFrames : Option ℕ := none
  threshold : Option ℚ := none
deriving DecidableEq

/-- Model of `ProcessResult` (src/unnamed/part_005:377-384). -/
structure ProcessResult where
  framesMono : List (List ℕ)
  framesPacked : List (List ℕ)
  width : ℕ
  height : ℕ
  fps : ℚ
  duration : ℚ
deriving DecidableEq

/-- Model of `Math.max(1, Math.min(30, opts.targetFps))` (src/unnamed/part_005:444). -/
def clampFps (targetFps : ℚ) : ℚ := max 1 (min 30 targetFps)

/-- Model of `totalDesired` (src/unnamed/part_005:446-452).  The guard
`opts.targetFrames && opts.targetFrames > 0` is falsy for an absent field
and for `0`.  Both `Math.min` arguments are integers, so the value is an
integer. -/
def totalDesired (duration : ℚ) (opts : ProcessOptions) : ℤ :=
  match opts.targetFrames with
  | some tf =>
      if 0 < tf then min (opts.maxFrames : ℤ) (tf : ℤ)
      else min (opts.maxFrames : ℤ) ⌊duration * clampFps opts.targetFps⌋
  | none => min (opts.maxFrames : ℤ) ⌊duration * clampFps opts.targetFps⌋

/-- The effective fps returned to the caller (src/unnamed/part_005:454). -/
def effectiveFps (duration : ℚ) (opts : ProcessOptions) : ℚ :=
  if 0 < totalDesired duration opts then
    min (clampFps opts.targetFps) ((totalDesired duration opts : ℚ) / duration)
  else clampFps opts.targetFps

/-- The timestamp-collecting loop (src/unnamed/part_005:460-462):
`for (let t = 0; t < duration && timestamps.length < totalDesired; t += step)`.
`len` is `timestamps.length` so far.  The loop pushes one timestamp per
iteration, so it runs at most `td.toNat` times; with that much fuel the
fuel-out base case coincides with the loop guard going false, making this
fuel recursion exactly the source loop. -/
def sampleLoop (duration step : ℚ) (td : ℤ) : ℕ → ℚ → ℕ → List ℚ
  | 0, _, _ => []
  | fuel + 1, t, len =>
      if t < duration ∧ (len : ℤ) < td then
        t :: sampleLoop duration step td fuel (t + step) (len + 1)
      else []

/-- The timestamp sequence of `processVideo` including the `[0]` fallback
(src/unnamed/part_005:456-467). -/
def timestampsOf (duration : ℚ) (opts : ProcessOptions) : List ℚ :=
  let ts := sampleLoop duration (1 / effectiveFps duration opts)
    (totalDesired duration opts) (totalDesired duration opts).toNat 0 0
  if ts = [] then [0] else ts

/-- Model of `processVideo` (src/unnamed/part_005:423-549) with the browser video
element and canvas abstracted by `frameAt`: `frameAt t` is the RGBA byte
buffer obtained by seeking the video to `t` and drawing it into the
canvas, or `none` when the seek/draw throws (such frames are logged and
skipped, src/unnamed/part_005:520-523).  The numeric pipeline — the falsy
duration check, the 30 s duration clamp, fps, timestamps, the
orientation-dependent canvas shape, quantization, packing, and the
zero-frames error — follows the source line by line. -/
def processVideo (videoDuration : ℚ) (frameAt : ℚ → Option (List ℕ))
    (opts : ProcessOptions) : Except String ProcessResult :=
  if videoDuration = 0 then .error "Invalid video duration" else
  let duration := min videoDuration 30
  let fps := effectiveFps duration opts
  let timestamps := timestampsOf duration opts
  let width := match opts.orientation with
    | .horizontal => opts.width
    | .vertical => opts.height
  let height := match opts.orientation with
    | .horizontal => opts.height
    | .vertical => opts.width
  if width = 0 ∨ height = 0 then .error "Invalid display dimensions" else
  let threshold := opts.threshold.getD 128
  let framesMono := timestamps.filterMap fun t =>
    (frameAt t).map fun data => grayscaleAndThreshold data threshold
  let framesPacked := framesMono.map fun mono => packRowMajor mono width height
  if framesMono = [] then .error "No frames could be extracted from video"
  else .ok { framesMono, framesPacked, width, height, fps, duration }

/-- Concrete options: a 1×1 horizontal display asking for 10 frames. -/
def optsTen : ProcessOptions :=
  { width := 1, height := 1, orientation := .horizontal, targetFps := 10,
    maxFrames := 30, targetFrames := some 10 }

/-- Concrete options for the frame-count-cap claims: `maxFrames = 20`,
`targetFrames = 50`, `targetFps = 4`, on a 1×1 horizontal display. -/
def optsCap4 : ProcessOptions :=
  { width := 1, height := 1, orientation := .horizontal, targetFps := 4,
    maxFrames := 20, targetFrames := some 50 }

/-- Concrete options for the frame-count-cap claims: `maxFrames = 20`,
`targetFrames = 50`, `targetFps = 8`, on a 1×1 horizontal display. -/
def optsCap8 : ProcessOptions :=
  { width := 1, height := 1, orientation := .horizontal, targetFps := 8,
    maxFrames := 20, targetFrames := some 50 }

/-- JS `b.toString(16)`: hexadecimal digits, lowercase letters. -/
def toHexLower (b : ℕ) : String := String.mk (Nat.toDigits 16 b)

/-- JS `.toUpperCase()` (character-list form, since `String.map`'s
position recursion does not reduce in the kernel). -/
def jsToUpper (s : String) : String := String.mk (s.data.map Char.toUpper)

/-- JS `.padStart(2, '0')`. -/
def padStart2 (s : String) : String :=
  if s.length < 2 then String.mk (List.replicate (2 - s.length) '0') ++ s else s

/-- One rendered byte (src/unnamed/part_005:577):
`'0x' + frameData[i].toString(16).toUpperCase().padStart(2, '0')`. -/
def hexByte (b : ℕ) : String := "0x" ++ padStart2 (jsToUpper (toHexLower b))

/-- One step of the line-chunking loop of src/unnamed/part_005:580-586:
a slice of 16 hex values, a two-space indent, values comma-and-space
separated, plus a trailing comma on every line except the last
(`isLastLine` there is `i + 16 >= allHexBytes.length`, i.e. at most 16
values remain).  Fuel-structured so that the kernel can evaluate it. -/
def hexLinesGo : ℕ → List String → List String
  | 0, _ => []
  | _, [] => []
  | fuel + 1, x :: xs =>
      ("  " ++ String.intercalate ", " ((x :: xs).take 16)
          ++ if xs.length + 1 ≤ 16 then "" else ",")
        :: hexLinesGo fuel ((x :: xs).drop 16)

/-- The loop of src/unnamed/part_005:580-586, entered with fuel equal to
the number of hex values; each iteration consumes 16 of them (at least
one), so the fuel never runs out before the values do. -/
def hexLines (hexes : List String) : List String := hexLinesGo hexes.length hexes

/-- One frame's array declaration (src/unnamed/part_005:588). -/
def frameDecl (idx : ℕ) (frameData : List ℕ) : String :=
  "const uint8_t PROGMEM frame_" ++ toString idx ++ "[" ++ toString frameData.length
    ++ "] = \x7b\n" ++ String.intercalate "\n" (hexLines (frameData.map hexByte)) ++ "\n\x7d;"

/-- The `framesPacked.map((frameData, idx) => …)` of
src/unnamed/part_005:569-589: render each frame's declaration in order,
throwing `Frame ${idx} is empty or invalid` at the first empty frame. -/
def frameDecls : List (List ℕ) → ℕ → Except String (List String)
  | [], _ => .ok []
  | fd :: rest, idx =>
      if fd.length = 0 then .error ("Frame " ++ toString idx ++ " is empty or invalid")
      else
        match frameDecls rest (idx + 1) with
        | .error e => .error e
        | .ok tail => .ok (frameDecl idx fd :: tail)

/-- Model of `framesIndex` (src/unnamed/part_005:591): the pointer array over all
frames, in order. -/
def framesIndexStr (framesPacked : List (List ℕ)) : String :=
  "const uint8_t* const frames[] PROGMEM = \x7b\n  "
    ++ String.intercalate ", " (framesPacked.mapIdx fun i _ => "frame_" ++ toString i)
    ++ "\n\x7d;"

/-- JS `Math.round`: round half toward `+∞`. -/
def jsRound (q : ℚ) : ℤ := ⌊q + 1/2⌋

/-- Model of `frameDelay = Math.max(1, Math.round(1000 / fps))`
(src/unnamed/part_005:565). -/
def frameDelay (fps : ℚ) : ℤ := max 1 (jsRound (1000 / fps))

/-- The three recognized `library` values (src/unnamed/part_005:551). -/
inductive Library
  | adafruit_gfx_ssd1306
  | adafruit_gfx_ssd1331
  | u8g2
deriving DecidableEq

/-- u8g2 template (src/unnamed/part_005:597-634) up to `${width}`. -/
def u8g2Pre1 : String := "#include <U8g2lib.h>\n#include <Wire.h>\n\n#define SCREEN_WIDTH "

/-- Template text between `${width}` and `${height}` (identical in all
three templates). -/
def screenHeightSep : String := "\n#define SCREEN_HEIGHT "

/-- u8g2 template between `${height}` and `${framesC}`. -/
def u8g2Pre2 : String :=
  "\n\nU8G2_SSD1306_128X64_NONAME_F_HW_I2C u8g2(U8G2_R0, U8X8_PIN_NONE);\n\n"

/-- Template text between `${framesIndex}` and `${frameDelay}` (identical
in all three templates): the `FRAME_COUNT` definition from the emitted
array and the start of the `FRAME_DELAY` line. -/
def countDelaySep : String :=
  "\n\nconst int FRAME_COUNT = sizeof(frames) / sizeof(frames[0]);\nconst int FRAME_DELAY = "

/-- u8g2 template after `${frameDelay}`: setup and the animation loop
blitting via `u8g2.drawXBMP`. -/
def u8g2Tail : String :=
  ";\n\nvoid setup() \x7b\n  Serial.begin(115200);\n  u8g2.begin();\n  u8g2.clearBuffer();\n  u8g2.sendBuffer();\n\x7d\n\nvoid loop() \x7b\n  while (true) \x7b\n    for (int frame = 0; frame < FRAME_COUNT; frame++) \x7b\n      unsigned long start = millis();\n      \n      u8g2.firstPage();\n      do \x7b\n        u8g2.drawXBMP(0, 0, SCREEN_WIDTH, SCREEN_HEIGHT, (const uint8_t*)pgm_read_ptr(&frames[frame]));\n      \x7d while (u8g2.nextPage());\n      \n      while (millis() - start < FRAME_DELAY) \x7b\n      \x7d\n    \x7d\n  \x7d\n\x7d\n"

/-- SSD1331 template (src/unnamed/part_005:639-677) up to `${width}`. -/
def ssd1331Pre1 : String :=
  "#include <SPI.h>\n#include <Adafruit_GFX.h>\n#include <Adafruit_SSD1331.h>\n\n#define SCREEN_WIDTH "

/-- SSD1331 template between `${height}` and `${framesC}`. -/
def ssd1331Pre2 : String :=
  "\n#define CS   10\n#define DC   9\n#define RST  8\n\nAdafruit_SSD1331 display = Adafruit_SSD1331(&SPI, CS, DC, RST);\n\n"

/-- SSD1331 template after `${frameDelay}`: setup and the animation loop
blitting via `display.drawXBitmap`. -/
def ssd1331Tail : String :=
  ";\n\nvoid setup() \x7b\n  Serial.begin(115200);\n  display.begin();\n  display.fillScreen(0x0000);\n\x7d\n\nvoid loop() \x7b\n  while (true) \x7b\n    for (int frame = 0; frame < FRAME_COUNT; frame++) \x7b\n      unsigned long start = millis();\n      \n      display.fillScreen(0x0000);\n      display.drawXBitmap(0, 0, (const uint8_t*)pgm_read_ptr(&frames[frame]), SCREEN_WIDTH, SCREEN_HEIGHT, 0xFFFF);\n      \n      while (millis() - start < FRAME_DELAY) \x7b\n      \x7d\n    \x7d\n  \x7d\n\x7d\n"

/-- SSD1306 template (src/unnamed/part_005:681-724) up to `${width}`. -/
def ssd1306Pre1 : String :=
  "#include <Wire.h>\n#include <Adafruit_GFX.h>\n#include <Adafruit_SSD1306.h>\n\n#define SCREEN_WIDTH "

/-- SSD1306 template between `${height}` and `${framesC}`. -/
def ssd1306Pre2 : String :=
  "\n#define OLED_RESET -1\n\nAdafruit_SSD1306 display(SCREEN_WIDTH, SCREEN_HEIGHT, &Wire, OLED_RESET);\n\n"

/-- SSD1306 template after `${frameDelay}`: setup (with the init-failure
halt) and the animation loop whose blit statement is the doubled member
access `display.display.drawXBitmap(…)`. -/
def ssd1306Tail : String :=
  ";\n\nvoid setup() \x7b\n  Serial.begin(115200);\n  \n  if (!display.begin(SSD1306_SWITCHCAPVCC, 0x3C)) \x7b\n    Serial.println(F(\"SSD1306 allocation failed\"));\n    for(;;);\n  \x7d\n  \n  display.clearDisplay();\n  display.display();\n\x7d\n\nvoid loop() \x7b\n  while (true) \x7b\n    for (int frame = 0; frame < FRAME_COUNT; frame++) \x7b\n      unsigned long start = millis();\n      \n      display.clearDisplay();\n      display.display.drawXBitmap(0, 0, (const uint8_t*)pgm_read_ptr(&frames[frame]), SCREEN_WIDTH, SCREEN_HEIGHT, 1);\n      display.display();\n      \n      while (millis() - start < FRAME_DELAY) \x7b\n      \x7d\n    \x7d\n  \x7d\n\x7d\n"

/-- The per-library template text before `${framesC}`, mirroring the
source's `if u8g2 … if ssd1331 … default ssd1306` chain; any library
value other than `u8g2` and `adafruit_gfx_ssd1331` reaches the default
SSD1306 template. -/
def preambleOf (library : Library) (width height : ℕ) : String :=
  if library = .u8g2 then
    u8g2Pre1 ++ toString width ++ screenHeightSep ++ toString height ++ u8g2Pre2
  else if library = .adafruit_gfx_ssd1331 then
    ssd1331Pre1 ++ toString width ++ screenHeightSep ++ toString height ++ ssd1331Pre2
  else
    ssd1306Pre1 ++ toString width ++ screenHeightSep ++ toString height ++ ssd1306Pre2

/-- The per-library template text after `${frameDelay}`, same dispatch
as `preambleOf`. -/
def tailOf (library : Library) : String :=
  if library = .u8g2 then u8g2Tail
  else if library = .adafruit_gfx_ssd1331 then ssd1331Tail
  else ssd1306Tail

/-- Model of `generateArduinoCode` (src/unnamed/part_005:551-725): reject an empty
frame list (`No frame data provided`), render the frame declarations
(aborting at the first empty frame), join them with blank lines, append
the pointer index array, and splice both into the library-selected
template. -/
def generateArduinoCode (framesPacked : List (List ℕ)) (width height : ℕ)
    (fps : ℚ) (library : Library) : Except String String :=
  if framesPacked.length = 0 then .error "No frame data provided"
  else
    match frameDecls framesPacked 0 with
    | .error e => .error e
    | .ok decls =>
        .ok (preambleOf library width height
          ++ String.intercalate "\n\n" decls ++ "\n\n" ++ framesIndexStr framesPacked
          ++ countDelaySep ++ toString (frameDelay fps) ++ tailOf library)

/-- The specification's `clamp(x, lo, hi)`. -/
def clamp (x lo hi : ℚ) : ℚ := max lo (min hi x)

/-- The specification's effective target frame count, in its words:
`min(opts.maxFrames, opts.targetFrames)` when `opts.targetFrames > 0`,
else `min(opts.maxFrames, floor(duration * clamp(opts.targetFps, 1, 30)))`. -/
def specTotalDesired (duration : ℚ) (opts : ProcessOptions) : ℤ :=
  match opts.targetFrames with
  | some tf =>
      if 0 < tf then min (opts.maxFrames : ℤ) (tf : ℤ)
      else min (opts.maxFrames : ℤ) ⌊duration * clamp opts.targetFps 1 30⌋
  | none => min (opts.maxFrames : ℤ) ⌊duration * clamp opts.targetFps 1 30⌋

/-- The specification's effective fps, in its words:
`totalDesired > 0 ? min(targetFpsClamped, totalDesired/duration) :
targetFpsClamped`. -/
def specFps (duration : ℚ) (opts : ProcessOptions) : ℚ :=
  if 0 < specTotalDesired duration opts then
    min (clamp opts.targetFps 1 30) ((specTotalDesired duration opts : ℚ) / duration)
  else clamp opts.targetFps 1 30

/-- The exact (real-arithmetic) luminance the specification's quantizer
clause speaks about: `0.299*R + 0.587*G + 0.114*B` with no rounding. -/
def lumaExact (r g b : ℚ) : ℚ := (299/1000) * r + (587/1000) * g + (114/1000) * b

/-- An RGBA buffer of `n` pixels, all `(128, 128, 128)` with opaque
alpha. -/
def allGray : ℕ → List ℕ
  | 0 => []
  | n + 1 => 128 :: 128 :: 128 :: 255 :: allGray n

/-- Uppercase hexadecimal digit table (specification side). -/
def hexDigitU (n : ℕ) : Char := "0123456789ABCDEF".data.getD n '?'

/-- A two-digit uppercase hex literal `0xNN` for a byte, written directly
from its two nibbles (specification side, independent of the JS
`toString(16)/toUpperCase/padStart` chain). -/
def specHexByte (b : ℕ) : String :=
  String.mk ['0', 'x', hexDigitU (b / 16), hexDigitU (b % 16)]

/-- Whether a string is a two-digit uppercase hexadecimal byte literal. -/
def isHexByteLit (s : String) : Bool :=
  s.data.length == 4 && s.data.take 2 == ['0', 'x']
    && (s.data.drop 2).all fun c => c.isDigit || ('A' ≤ c && c ≤ 'F')

/-- The byte value denoted by a two-digit uppercase hex literal, if any
(specification-side decoder for the rendered bytes). -/
def decodeHexByteLit (s : String) : Option ℕ :=
  match s.data with
  | ['0', 'x', h, l] =>
      if "0123456789ABCDEF".data.indexOf h < 16 ∧ "0123456789ABCDEF".data.indexOf l < 16 then
        some (16 * "0123456789ABCDEF".data.indexOf h + "0123456789ABCDEF".data.indexOf l)
      else none
  | _ => none

/-- Chunking step: slices of 16, fuel-structured like `hexLinesGo`. -/
def chunks16Go {α : Type} : ℕ → List α → List (List α)
  | 0, _ => []
  | _, [] => []
  | fuel + 1, x :: xs => (x :: xs).take 16 :: chunks16Go fuel ((x :: xs).drop 16)

/-- A list cut into consecutive slices of 16 elements (the last slice may
be shorter, never empty).  Specification-side description of the hex line
layout. -/
def chunks16 {α : Type} (l : List α) : List (List α) := chunks16Go l.length l

/-- Render chunks of hex values as the claimed source lines: two-space
indent, `", "` between values, a trailing comma on every line except the
last. -/
def renderChunks : List (List String) → List String
  | [] => []
  | [c] => ["  " ++ String.intercalate ", " c]
  | c :: rest => ("  " ++ String.intercalate ", " c ++ ",") :: renderChunks rest

/-- A constant RGBA oracle: every seek succeeds and yields the given
buffer (stands for a video whose every decoded frame rasterizes to it). -/
def constFrame (data : List ℕ) : ℚ → Option (List ℕ) := fun _ => some data

/-- Options with `maxFrames = 0` (and `targetFrames = 5`): the desired
total is `min(0, 5) = 0`, forcing the `[0]` fallback. -/
def optsZeroMax : ProcessOptions :=
  { width := 1, height := 1, orientation := .horizontal, targetFps := 10,
    maxFrames := 0, targetFrames := some 5 }

/-- A 2×1 display in vertical orientation. -/
def optsVert : ProcessOptions :=
  { width := 2, height := 1, orientation := .vertical, targetFps := 10,
    maxFrames := 5, targetFrames := some 1 }

/-- The structure claimed for the generated frame-data arrays, stated
with the specification-side renderers (`specHexByte`, `chunks16`,
`renderChunks`) and decoders: one declaration per frame named `frame_i`
in order, declared length equal to the byte count, `PROGMEM` annotation,
bytes as decodable two-digit uppercase hex literals laid out 16 per line
with a trailing comma on every line but the last, a single `frames[]`
pointer index listing `frame_0 … frame_{n-1}` in order with the same
annotation, and a frame count emitted as the expression
`sizeof(frames) / sizeof(frames[0])` rather than a literal. -/
def C3Spec (framesPacked : List (List ℕ)) (width height : ℕ) (fps : ℚ)
    (library : Library) : Prop :=
  ∃ text decls,
    generateArduinoCode framesPacked width height fps library = .ok text ∧
    frameDecls framesPacked 0 = .ok decls ∧
    decls.length = framesPacked.length ∧
    (∀ i, i < framesPacked.length →
      decls.getD i "" =
        "const uint8_t PROGMEM frame_" ++ toString i ++ "["
          ++ toString (framesPacked.getD i []).length ++ "] = \x7b\n"
          ++ String.intercalate "\n"
            (renderChunks (chunks16 ((framesPacked.getD i []).map specHexByte)))
          ++ "\n\x7d;") ∧
    (∀ i, i < framesPacked.length → ∀ b ∈ framesPacked.getD i [],
      isHexByteLit (specHexByte b) = true ∧ decodeHexByteLit (specHexByte b) = some b) ∧
    (∀ i, i < framesPacked.length →
      (chunks16 ((framesPacked.getD i []).map specHexByte)).flatten =
          (framesPacked.getD i []).map specHexByte ∧
        (∀ c ∈ chunks16 ((framesPacked.getD i []).map specHexByte), c ≠ [] ∧ c.length ≤ 16) ∧
        ∀ c ∈ (chunks16 ((framesPacked.getD i []).map specHexByte)).dropLast, c.length = 16) ∧
    framesIndexStr framesPacked =
      "const uint8_t* const frames[] PROGMEM = \x7b\n  "
        ++ String.intercalate ", "
          ((List.range framesPacked.length).map fun i => "frame_" ++ toString i)
        ++ "\n\x7d;" ∧
    text = preambleOf library width height ++ String.intercalate "\n\n" decls ++ "\n\n"
        ++ framesIndexStr framesPacked ++ countDelaySep ++ toString (frameDelay fps)
        ++ tailOf library ∧
    ∃ A B, text = A ++ "const int FRAME_COUNT = sizeof(frames) / sizeof(frames[0]);" ++ B

/-! ### Sampler lemmas -/

theorem sampleLoop_length_le (d s : ℚ) (td : ℤ) :
    ∀ (fuel : ℕ) (t : ℚ) (len : ℕ), (sampleLoop d s td fuel t len).length ≤ fuel := by
  intro fuel
  induction fuel with
  | zero => intro t len; simp [sampleLoop]
  | succ n ih =>
      intro t len
      simp only [sampleLoop]
      split
      · simpa using ih (t + s) (len + 1)
      · simp

theorem sampleLoop_count (d s : ℚ) (td : ℤ) :
    ∀ (fuel : ℕ) (t : ℚ) (len : ℕ),
      (len : ℤ) + (sampleLoop d s td fuel t len).length ≤ max (len : ℤ) td := by
  intro fuel
  induction fuel with
  | zero =>
      intro t len
      simp only [sampleLoop, List.length_nil, Nat.cast_zero, add_zero]
      exact le_max_left (len : ℤ) td
  | succ n ih =>
      intro t len
      simp only [sampleLoop]
      split
      · rename_i h
        have hlt : (len : ℤ) < td := h.2
        have h2 := ih (t + s) (len + 1)
        push_cast at h2
        rw [max_eq_right (by omega : ((len : ℤ) + 1 : ℤ) ≤ td)] at h2
        rw [max_eq_right (by omega : ((len : ℕ) : ℤ) ≤ td)]
        simp only [List.length_cons]
        push_cast
        omega
      · simp only [List.length_nil, Nat.cast_zero, add_zero]
        exact le_max_left (len : ℤ) td

theorem sampleLoop_mem (d s : ℚ) (td : ℤ) :
    ∀ (fuel : ℕ) (t : ℚ) (len : ℕ) (x : ℚ),
      x ∈ sampleLoop d s td fuel t len → (0 ≤ s → t ≤ x) ∧ x < d := by
  intro fuel
  induction fuel with
  | zero => intro t len x hx; simp [sampleLoop] at hx
  | succ n ih =>
      intro t len x hx
      simp only [sampleLoop] at hx
      split at hx
      · rename_i h
        rcases List.mem_cons.mp hx with rfl | hx'
        · exact ⟨fun _ => le_refl x, h.1⟩
        · obtain ⟨h1, h2⟩ := ih (t + s) (len + 1) x hx'
          exact ⟨fun hs => le_trans (by linarith [h1 hs]) (h1 hs), h2⟩
      · simp at hx

theorem sampleLoop_pairwise (d s : ℚ) (td : ℤ) (hs : 0 < s) :
    ∀ (fuel : ℕ) (t : ℚ) (len : ℕ), (sampleLoop d s td fuel t len).Pairwise (· < ·) := by
  intro fuel
  induction fuel with
  | zero => intro t len; simp [sampleLoop]
  | succ n ih =>
      intro t len
      simp only [sampleLoop]
      split
      · refine List.Pairwise.cons ?_ (ih (t + s) (len + 1))
        intro y hy
        have hmem := sampleLoop_mem d s td n (t + s) (len + 1) y hy
        have := hmem.1 (le_of_lt hs)
        linarith
      · exact List.Pairwise.nil

theorem clampFps_pos (f : ℚ) : 0 < clampFps f := by
  have h : (1 : ℚ) ≤ clampFps f := le_max_left _ _
  linarith

theorem effectiveFps_pos (duration : ℚ) (opts : ProcessOptions) (hd : 0 < duration) :
    0 < effectiveFps duration opts := by
  unfold effectiveFps
  split
  · rename_i h
    exact lt_min (clampFps_pos _) (div_pos (by exact_mod_cast h) hd)
  · exact clampFps_pos _

theorem timestampsOf_ge_one (duration : ℚ) (opts : ProcessOptions) :
    1 ≤ (timestampsOf duration opts).length := by
  simp only [timestampsOf]
  split
  · simp
  · rename_i h
    exact List.length_pos.mpr h

theorem timestampsOf_length_le (duration : ℚ) (opts : ProcessOptions) :
    ((timestampsOf duration opts).length : ℤ) ≤ max 1 (totalDesired duration opts) := by
  simp only [timestampsOf]
  split
  · simp
  · have h := sampleLoop_count duration (1 / effectiveFps duration opts)
      (totalDesired duration opts) (totalDesired duration opts).toNat 0 0
    simp only [Nat.cast_zero, zero_add] at h
    have : max ((0 : ℕ) : ℤ) (totalDesired duration opts) ≤ max 1 (totalDesired duration opts) := by
      apply max_le_max _ (le_refl _)
      norm_num
    exact le_trans h (by simpa using this)

theorem timestampsOf_mono_mem (duration : ℚ) (opts : ProcessOptions) (hd : 0 < duration) :
    (timestampsOf duration opts).Pairwise (· < ·) ∧
      ∀ x ∈ timestampsOf duration opts, 0 ≤ x ∧ x ≤ duration := by
  have hfps := effectiveFps_pos duration opts hd
  have hstep : 0 < 1 / effectiveFps duration opts := by positivity
  simp only [timestampsOf]
  split
  · constructor
    · simp
    · intro x hx
      simp only [List.mem_singleton] at hx
      subst hx
      exact ⟨le_refl 0, le_of_lt hd⟩
  · constructor
    · exact sampleLoop_pairwise _ _ _ hstep _ _ _
    · intro x hx
      obtain ⟨h1, h2⟩ := sampleLoop_mem duration (1 / effectiveFps duration opts)
        (totalDesired duration opts) _ 0 0 x hx
      exact ⟨h1 (le_of_lt hstep), le_of_lt h2⟩

/-- Inversion of a successful `processVideo` run: every field of the
result in terms of the pipeline's pieces, plus the guarantee that at
least one frame was extracted. -/
theorem processVideo_ok {videoDuration : ℚ} {frameAt : ℚ → Option (List ℕ)}
    {opts : ProcessOptions} {res : ProcessResult}
    (h : processVideo videoDuration frameAt opts = .ok res) :
    res.framesMono = (timestampsOf (min videoDuration 30) opts).filterMap
        (fun t => (frameAt t).map fun data =>
          grayscaleAndThreshold data (opts.threshold.getD 128)) ∧
      res.framesPacked = res.framesMono.map (fun mono => packRowMajor mono res.width res.height) ∧
      res.width = (match opts.orientation with
        | .horizontal => opts.width
        | .vertical => opts.height) ∧
      res.height = (match opts.orientation with
        | .horizontal => opts.height
        | .vertical => opts.width) ∧
      res.fps = effectiveFps (min videoDuration 30) opts ∧
      res.duration = min videoDuration 30 ∧
      res.framesMono ≠ [] := by
  simp only [processVideo] at h
  split at h
  · exact Except.noConfusion h
  · split at h
    · exact Except.noConfusion h
    · split at h
      · exact Except.noConfusion h
      · rename_i hne
        obtain rfl : _ = res := (Except.ok.injEq _ _).mp h
        exact ⟨rfl, rfl, rfl, rfl, rfl, rfl, hne⟩

theorem effectiveFps_eq_specFps (duration : ℚ) (opts : ProcessOptions) :
    effectiveFps duration opts = specFps duration opts := rfl

/-! ### Claims C4, C5, C6, C9 -/

/-- C4: whenever `processVideo` succeeds, the returned fps equals
`min(clamp(targetFps,1,30), totalDesired/duration)` when
`totalDesired > 0` and `clamp(targetFps,1,30)` otherwise, with
`totalDesired = min(maxFrames, targetFrames)` for positive `targetFrames`
and `min(maxFrames, floor(duration*clamp(targetFps,1,30)))` otherwise
(`specFps`/`specTotalDesired` transcribe the claim's formula); and in the
2-second scenario with `targetFrames = 10`, `maxFrames ≥ 10`,
`targetFps ≥ 5`, the returned fps is exactly 5. -/
theorem C4_effective_fps (videoDuration : ℚ) (frameAt : ℚ → Option (List ℕ))
    (opts : ProcessOptions) (res : ProcessResult)
    (h : processVideo videoDuration frameAt opts = .ok res) :
    res.fps = specFps (min videoDuration 30) opts ∧
      (videoDuration = 2 → opts.targetFrames = some 10 → 10 ≤ opts.maxFrames →
        5 ≤ opts.targetFps → res.fps = 5) := by
  have hfps := (processVideo_ok h).2.2.2.2.1
  constructor
  · rw [hfps, effectiveFps_eq_specFps]
  · intro h2 htf hmax hfive
    subst h2
    have hdur : min (2 : ℚ) 30 = 2 := by norm_num
    have htd : totalDesired 2 opts = 10 := by
      unfold totalDesired
      rw [htf]
      norm_num
      exact_mod_cast hmax
    rw [hfps, hdur]
    unfold effectiveFps
    rw [htd]
    norm_num
    unfold clampFps
    exact le_max_of_le_right (le_min (by norm_num) hfive)

theorem C4_effective_fps_witness :
    ∃ res, processVideo 2 (constFrame [0, 0, 0, 0]) optsTen = .ok res ∧ res.fps = 5 := by
  obtain ⟨res, hres⟩ : ∃ res, processVideo 2 (constFrame [0, 0, 0, 0]) optsTen = .ok res := by
    cases hc : processVideo 2 (constFrame [0, 0, 0, 0]) optsTen with
    | ok r => exact ⟨r, rfl⟩
    | error e =>
        have hOk : (processVideo 2 (constFrame [0, 0, 0, 0]) optsTen).isOk = true := by decide
        rw [hc] at hOk
        exact Bool.noConfusion hOk
  exact ⟨res, hres,
    (C4_effective_fps 2 (constFrame [0, 0, 0, 0]) optsTen res hres).2 rfl rfl
      (by decide) (by decide)⟩

/-- C5 counterexample: with `maxFrames = 20`, `targetFrames = 50`, a
4-second video at `targetFps = 4` succeeds with only 16 frames, not the
claimed exact 20. -/
theorem C5_frame_cap_cex :
    optsCap4.maxFrames = 20 ∧ optsCap4.targetFrames = some 50 ∧
      (processVideo 4 (constFrame [0, 0, 0, 0]) optsCap4).toOption.map
          (fun r => r.framesMono.length) = some 16 ∧
      some 16 ≠ some 20 := by
  refine ⟨rfl, rfl, ?_, by decide⟩
  decide

/-- C5 amended: with `maxFrames = 20` and `targetFrames = 50` every
successful `processVideo` run returns at most 20 frames, never more;
the count can fall short of 20 — a 4-second video at `targetFps = 4`
with every frame extractable returns 16 — and it can reach exactly 20,
as a 2.5-second video at `targetFps = 8` with every frame extractable
does. -/
theorem C5_frame_cap (videoDuration : ℚ) (frameAt : ℚ → Option (List ℕ))
    (opts : ProcessOptions) (res : ProcessResult)
    (hmax : opts.maxFrames = 20) (htf : opts.targetFrames = some 50)
    (h : processVideo videoDuration frameAt opts = .ok res) :
    res.framesMono.length ≤ 20 ∧
      (processVideo 4 (constFrame [0, 0, 0, 0]) optsCap4).toOption.map
        (fun r => r.framesMono.length) = some 16 ∧
      (processVideo (5/2) (constFrame [0, 0, 0, 0]) optsCap8).toOption.map
        (fun r => r.framesMono.length) = some 20 := by
  refine ⟨?_, by decide, by decide⟩
  have hm := (processVideo_ok h).1
  have hlen : res.framesMono.length ≤ (timestampsOf (min videoDuration 30) opts).length := by
    rw [hm]
    exact List.length_filterMap_le _ _
  have htd : totalDesired (min videoDuration 30) opts = 20 := by
    unfold totalDesired
    rw [htf, hmax]
    norm_num
  have hb := timestampsOf_length_le (min videoDuration 30) opts
  rw [htd] at hb
  have : ((timestampsOf (min videoDuration 30) opts).length : ℤ) ≤ 20 := by
    refine le_trans hb ?_
    norm_num
  omega

theorem C5_frame_cap_witness :
    ∃ res, processVideo (5/2) (constFrame [0, 0, 0, 0]) optsCap8 = .ok res ∧
      res.framesMono.length ≤ 20 := by
  obtain ⟨res, hres⟩ : ∃ res, processVideo (5/2) (constFrame [0, 0, 0, 0]) optsCap8 = .ok res := by
    cases hc : processVideo (5/2) (constFrame [0, 0, 0, 0]) optsCap8 with
    | ok r => exact ⟨r, rfl⟩
    | error e =>
        have hOk : (processVideo (5/2) (constFrame [0, 0, 0, 0]) optsCap8).isOk = true := by decide
        rw [hc] at hOk
        exact Bool.noConfusion hOk
  exact ⟨res, hres, (C5_frame_cap (5/2) (constFrame [0, 0, 0, 0]) optsCap8 res rfl rfl hres).1⟩

/-- C6 counterexample: with `maxFrames = 0` and `targetFrames = 5` the
stepping loop collects nothing and the `[0]` fallback produces a sequence
of length 1, which exceeds the claimed bound
`min(maxFrames, targetFrames) = 0`. -/
theorem C6_timestamps_cex :
    timestampsOf 1 optsZeroMax = [0] ∧ totalDesired 1 optsZeroMax = 0 ∧
      ¬ ((timestampsOf 1 optsZeroMax).length : ℤ) ≤ totalDesired 1 optsZeroMax := by
  decide

/-- C6 amended: the timestamp sequence is strictly increasing, each entry
lies in `[0, duration]`, its length is at least 1, and it is bounded by
the desired total whenever that bound is at least 1 (the `[0]` fallback
exceeds the bound when the desired total is below 1, which the original
claim overlooked); consequently every successful run has at least one
mono frame. -/
theorem C6_timestamp_invariants (videoDuration : ℚ) (frameAt : ℚ → Option (List ℕ))
    (opts : ProcessOptions) (hd : 0 < videoDuration) :
    (timestampsOf (min videoDuration 30) opts).Pairwise (· < ·) ∧
      (∀ x ∈ timestampsOf (min videoDuration 30) opts, 0 ≤ x ∧ x ≤ min videoDuration 30) ∧
      1 ≤ (timestampsOf (min videoDuration 30) opts).length ∧
      (1 ≤ totalDesired (min videoDuration 30) opts →
        ((timestampsOf (min videoDuration 30) opts).length : ℤ) ≤
          totalDesired (min videoDuration 30) opts) ∧
      ∀ res, processVideo videoDuration frameAt opts = .ok res → 1 ≤ res.framesMono.length := by
  have hdm : 0 < min videoDuration 30 := lt_min hd (by norm_num)
  obtain ⟨hpw, hmem⟩ := timestampsOf_mono_mem (min videoDuration 30) opts hdm
  refine ⟨hpw, hmem, timestampsOf_ge_one _ _, ?_, ?_⟩
  · intro h1
    have hb := timestampsOf_length_le (min videoDuration 30) opts
    rw [max_eq_right h1] at hb
    exact hb
  · intro res hres
    have hne := (processVideo_ok hres).2.2.2.2.2.2
    exact List.length_pos.mpr hne

theorem C6_timestamp_invariants_witness :
    (0 : ℚ) < 2 ∧
      ((timestampsOf (min 2 30) optsTen).Pairwise (· < ·) ∧
        (∀ x ∈ timestampsOf (min 2 30) optsTen, 0 ≤ x ∧ x ≤ min 2 30) ∧
        1 ≤ (timestampsOf (min 2 30) optsTen).length ∧
        (1 ≤ totalDesired (min 2 30) optsTen →
          ((timestampsOf (min 2 30) optsTen).length : ℤ) ≤ totalDesired (min 2 30) optsTen) ∧
        ∀ res, processVideo 2 (constFrame [0, 0, 0, 0]) optsTen = .ok res →
          1 ≤ res.framesMono.length) :=
  ⟨by norm_num, C6_timestamp_invariants 2 (constFrame [0, 0, 0, 0]) optsTen (by norm_num)⟩

/-- C9 counterexample: for a vertical 2×1 request the returned width is
`opts.height = 1`, not `opts.width = 2` as claimed. -/
theorem C9_orientation_cex :
    (processVideo 2 (constFrame (List.replicate 8 0)) optsVert).toOption.map
        ProcessResult.width ≠ some optsVert.width := by
  decide

/-- C9 amended: the rasterized buffer shape swaps the requested
dimensions for vertical orientation — `ProcessResult.width = opts.height`
and `ProcessResult.height = opts.width` — while horizontal orientation
keeps them as requested. -/
theorem C9_orientation_dims (videoDuration : ℚ) (frameAt : ℚ → Option (List ℕ))
    (opts : ProcessOptions) (res : ProcessResult)
    (h : processVideo videoDuration frameAt opts = .ok res) :
    (opts.orientation = .vertical → res.width = opts.height ∧ res.height = opts.width) ∧
      (opts.orientation = .horizontal → res.width = opts.width ∧ res.height = opts.height) := by
  have hw := (processVideo_ok h).2.2.1
  have hh := (processVideo_ok h).2.2.2.1
  constructor <;> intro ho <;> rw [hw, hh, ho] <;> exact ⟨rfl, rfl⟩

theorem C9_orientation_dims_witness :
    ∃ res, processVideo 2 (constFrame (List.replicate 8 0)) optsVert = .ok res ∧
      res.width = optsVert.height ∧ res.height = optsVert.width := by
  obtain ⟨res, hres⟩ :
      ∃ res, processVideo 2 (constFrame (List.replicate 8 0)) optsVert = .ok res := by
    cases hc : processVideo 2 (constFrame (List.replicate 8 0)) optsVert with
    | ok r => exact ⟨r, rfl⟩
    | error e =>
        have hOk : (processVideo 2 (constFrame (List.replicate 8 0)) optsVert).isOk = true := by
          decide
        rw [hc] at hOk
        exact Bool.noConfusion hOk
  exact ⟨res, hres,
    (C9_orientation_dims 2 (constFrame (List.replicate 8 0)) optsVert res hres).1 rfl⟩

/-! ### Claim C2 -/

theorem grayscale_characterization :
    ∀ (n : ℕ) (data : List ℕ) (threshold : ℚ), data.length = 4 * n →
      (grayscaleAndThreshold data threshold).length = n ∧
        ∀ j, j < n → (grayscaleAndThreshold data threshold).getD j 0 =
          if threshold ≤ jsLum (data.getD (4*j) 0) (data.getD (4*j+1) 0) (data.getD (4*j+2) 0)
          then 1 else 0 := by
  intro n
  induction n with
  | zero =>
      intro data threshold hlen
      obtain rfl : data = [] := List.eq_nil_of_length_eq_zero (by omega)
      exact ⟨rfl, fun j hj => absurd hj (Nat.not_lt_zero j)⟩
  | succ n ih =>
      intro data threshold hlen
      match data with
      | r :: g :: b :: a :: rest =>
          have hrest : rest.length = 4 * n := by
            simp only [List.length_cons] at hlen
            omega
          obtain ⟨ihl, ihe⟩ := ih rest threshold hrest
          constructor
          · simp only [grayscaleAndThreshold, List.length_cons, ihl]
          · intro j hj
            cases j with
            | zero => rfl
            | succ j' =>
                have hj' : j' < n := by omega
                have ihj := ihe j' hj'
                have g0 : (r :: g :: b :: a :: rest).getD (4*(j'+1)) 0 = rest.getD (4*j') 0 := by
                  rw [show 4*(j'+1) = 4*j' + 4 from by ring]
                  rfl
                have g1 : (r :: g :: b :: a :: rest).getD (4*(j'+1)+1) 0 =
                    rest.getD (4*j'+1) 0 := by
                  rw [show 4*(j'+1)+1 = (4*j'+1) + 4 from by ring]
                  rfl
                have g2 : (r :: g :: b :: a :: rest).getD (4*(j'+1)+2) 0 =
                    rest.getD (4*j'+2) 0 := by
                  rw [show 4*(j'+1)+2 = (4*j'+2) + 4 from by ring]
                  rfl
                have gl : (grayscaleAndThreshold (r :: g :: b :: a :: rest) threshold).getD
                    (j'+1) 0 = (grayscaleAndThreshold rest threshold).getD j' 0 := rfl
                rw [gl, g0, g1, g2]
                exact ihj

theorem grayscale_allGray :
    ∀ (n : ℕ) (threshold : ℚ), ¬ threshold ≤ jsLum 128 128 128 →
      grayscaleAndThreshold (allGray n) threshold = List.replicate n 0 := by
  intro n
  induction n with
  | zero => intro threshold _; rfl
  | succ n ih =>
      intro threshold ht
      simp only [allGray, grayscaleAndThreshold, Nat.cast_ofNat, if_neg ht, List.replicate_succ]
      exact congrArg _ (ih threshold ht)

/-- C2 counterexample: the exact luminance of an all-`(128,128,128)`
pixel is exactly 128, so the claim demands output bit 1 at threshold 128;
the code's binary64 evaluation lands just below 128 and emits 0. -/
theorem C2_quantize_cex :
    (128 : ℚ) ≤ lumaExact 128 128 128 ∧ jsLum 128 128 128 < 128 ∧
      grayscaleAndThreshold [128, 128, 128, 255] 128 = [0] := by
  refine ⟨by norm_num [lumaExact], by decide, by decide⟩

/-- C2 amended: `grayscaleAndThreshold` maps a `4*n`-byte RGBA buffer to
`n` entries; entry `j` is 1 exactly when the binary64 evaluation of
`0.299*R + 0.587*G + 0.114*B` for pixel `j` (the value the JavaScript
engine actually compares, `jsLum`) is `≥ threshold`, and 0 otherwise
(alpha ignored, comparison inclusive).  An all-`(128,128,128)` buffer
yields all-0 at threshold 128 — the binary64 luminance is slightly below
128 — and all-0 at threshold 129. -/
theorem C2_quantize (data : List ℕ) (threshold : ℚ) (n : ℕ) (hlen : data.length = 4 * n) :
    (grayscaleAndThreshold data threshold).length = n ∧
      (∀ j, j < n → (grayscaleAndThreshold data threshold).getD j 0 =
        if threshold ≤ jsLum (data.getD (4*j) 0) (data.getD (4*j+1) 0) (data.getD (4*j+2) 0)
        then 1 else 0) ∧
      (∀ m, grayscaleAndThreshold (allGray m) 128 = List.replicate m 0) ∧
      (∀ m, grayscaleAndThreshold (allGray m) 129 = List.replicate m 0) := by
  obtain ⟨h1, h2⟩ := grayscale_characterization n data threshold hlen
  exact ⟨h1, h2, fun m => grayscale_allGray m 128 (by decide),
    fun m => grayscale_allGray m 129 (by decide)⟩

theorem C2_quantize_witness :
    ([255, 0, 0, 0] : List ℕ).length = 4 * 1 ∧
      ((grayscaleAndThreshold [255, 0, 0, 0] 128).length = 1 ∧
        (∀ j, j < 1 → (grayscaleAndThreshold [255, 0, 0, 0] 128).getD j 0 =
          if (128 : ℚ) ≤ jsLum (([255, 0, 0, 0] : List ℕ).getD (4*j) 0)
              (([255, 0, 0, 0] : List ℕ).getD (4*j+1) 0)
              (([255, 0, 0, 0] : List ℕ).getD (4*j+2) 0)
          then 1 else 0) ∧
        (∀ m, grayscaleAndThreshold (allGray m) 128 = List.replicate m 0) ∧
        (∀ m, grayscaleAndThreshold (allGray m) 129 = List.replicate m 0)) :=
  ⟨by decide, C2_quantize [255, 0, 0, 0] 128 1 (by decide)⟩

/-! ### Claim C7 -/

theorem frameDecls_ok_iff :
    ∀ (l : List (List ℕ)) (idx : ℕ),
      (∃ ds, frameDecls l idx = .ok ds) ↔ ∀ f ∈ l, f ≠ [] := by
  intro l
  induction l with
  | nil => intro idx; simp [frameDecls]
  | cons fd rest ih =>
      intro idx
      simp only [frameDecls]
      split
      · rename_i h0
        constructor
        · rintro ⟨ds, hds⟩
          exact Except.noConfusion hds
        · intro hall
          exact absurd (List.eq_nil_of_length_eq_zero h0) (hall fd (List.mem_cons_self fd rest))
      · rename_i h0
        cases hrest : frameDecls rest (idx + 1) with
        | error e =>
            constructor
            · rintro ⟨ds, hds⟩
              exact Except.noConfusion hds
            · intro hall
              obtain ⟨ds', hds'⟩ := (ih (idx + 1)).mpr
                (fun f hf => hall f (List.mem_cons_of_mem _ hf))
              rw [hrest] at hds'
              exact Except.noConfusion hds'
        | ok tail =>
            constructor
            · rintro ⟨ds, hds⟩
              intro f hf
              rcases List.mem_cons.mp hf with rfl | hf'
              · intro hfe
                exact h0 (by simp [hfe])
              · exact (ih (idx + 1)).mp ⟨tail, hrest⟩ f hf'
            · intro hall
              exact ⟨frameDecl idx fd :: tail, rfl⟩

/-- Successful generation, structured: the generated text is the chosen
preamble, the joined frame declarations, the pointer index array, the
`FRAME_COUNT`/`FRAME_DELAY` section and the chosen tail. -/
theorem generate_ok (framesPacked : List (List ℕ)) (width height : ℕ) (fps : ℚ)
    (library : Library) (h1 : framesPacked ≠ []) (h2 : ∀ f ∈ framesPacked, f ≠ []) :
    ∃ decls, frameDecls framesPacked 0 = .ok decls ∧
      generateArduinoCode framesPacked width height fps library =
        .ok (preambleOf library width height
          ++ String.intercalate "

" decls ++ "

" ++ framesIndexStr framesPacked
          ++ countDelaySep ++ toString (frameDelay fps) ++ tailOf library) := by
  obtain ⟨decls, hd⟩ := (frameDecls_ok_iff framesPacked 0).mpr h2
  refine ⟨decls, hd, ?_⟩
  unfold generateArduinoCode
  rw [if_neg (fun hl => h1 (List.length_eq_zero.mp hl)), hd]

/-- C7: `generateArduinoCode` fails exactly when the frame list is empty
or contains an empty frame, and under the complementary precondition it
returns the complete program text (its only failure modes are these
caller-contract violations). -/
theorem C7_generate_error_cases (framesPacked : List (List ℕ)) (width height : ℕ)
    (fps : ℚ) (library : Library) :
    ((∃ e, generateArduinoCode framesPacked width height fps library = .error e) ↔
        framesPacked = [] ∨ ∃ f ∈ framesPacked, f = []) ∧
      (framesPacked ≠ [] ∧ (∀ f ∈ framesPacked, f ≠ []) →
        ∃ text, generateArduinoCode framesPacked width height fps library = .ok text) := by
  constructor
  · constructor
    · rintro ⟨e, he⟩
      by_contra hcon
      push_neg at hcon
      obtain ⟨hne, hall⟩ := hcon
      obtain ⟨decls, _, hok⟩ := generate_ok framesPacked width height fps library hne
        (fun f hf hfe => hall f hf hfe)
      rw [hok] at he
      exact Except.noConfusion he
    · intro hor
      rcases hor with rfl | ⟨f, hf, rfl⟩
      · exact ⟨"No frame data provided", rfl⟩
      · -- some frame is empty: generation cannot succeed
        cases hg : generateArduinoCode framesPacked width height fps library with
        | error e => exact ⟨e, rfl⟩
        | ok text =>
            exfalso
            unfold generateArduinoCode at hg
            split at hg
            · exact Except.noConfusion hg
            · rename_i hlen
              have hne : framesPacked ≠ [] := fun hx => hlen (by simp [hx])
              split at hg
              · rename_i e he
                exact Except.noConfusion hg
              · rename_i tail htail
                have := (frameDecls_ok_iff framesPacked 0).mp ⟨tail, htail⟩ [] hf
                exact this rfl
  · intro ⟨hne, hall⟩
    obtain ⟨decls, _, hok⟩ := generate_ok framesPacked width height fps library hne hall
    exact ⟨_, hok⟩

theorem C7_generate_error_cases_witness :
    (([[0]] : List (List ℕ)) ≠ [] ∧ (∀ f ∈ ([[0]] : List (List ℕ)), f ≠ [])) ∧
      ∃ text, generateArduinoCode [[0]] 1 1 5 .u8g2 = .ok text :=
  ⟨⟨by decide, by decide⟩,
    (C7_generate_error_cases [[0]] 1 1 5 .u8g2).2 ⟨by decide, by decide⟩⟩

/-! ### String helpers for the generated-text claims -/

theorem str_data_inj {a b : String} (h : a.data = b.data) : a = b := by
  cases a
  cases b
  exact congrArg String.mk h

theorem str_append_data (a b : String) : (a ++ b).data = a.data ++ b.data := rfl

theorem strAppend_assoc (a b c : String) : a ++ b ++ c = a ++ (b ++ c) := by
  apply str_data_inj
  simp only [str_append_data, List.append_assoc]

theorem str_prefix_ne (p1 p2 r1 r2 : String)
    (hlen : p1.data.length = p2.data.length) (hne : p1 ≠ p2) : p1 ++ r1 ≠ p2 ++ r2 := by
  intro h
  apply hne
  have hd : p1.data ++ r1.data = p2.data ++ r2.data := by
    rw [← str_append_data, ← str_append_data, h]
  exact str_data_inj (List.append_inj_left hd hlen)

theorem str_append_left_cancel_ne (a : String) {b c : String} (h : b ≠ c) :
    a ++ b ≠ a ++ c := by
  intro he
  apply h
  have hd : a.data ++ b.data = a.data ++ c.data := by
    rw [← str_append_data, ← str_append_data, he]
  exact str_data_inj (List.append_cancel_left hd)

/-! ### Claim C8 -/

/-- C8: for the same frames, dimensions and fps, the u8g2 and SSD1306
outputs share a byte-identical frame-data section (the joined `frame_i`
declarations plus the `frames[]` index array) while their preamble
(includes and display object) and tail (setup and blit loop) sections
differ. -/
theorem C8_library_switch (framesPacked : List (List ℕ)) (width height : ℕ) (fps : ℚ)
    (h1 : framesPacked ≠ []) (h2 : ∀ f ∈ framesPacked, f ≠ []) :
    ∃ dataSection preU postU preA postA : String,
      generateArduinoCode framesPacked width height fps .u8g2 =
          .ok (preU ++ dataSection ++ postU) ∧
        generateArduinoCode framesPacked width height fps .adafruit_gfx_ssd1306 =
          .ok (preA ++ dataSection ++ postA) ∧
        (∃ decls, frameDecls framesPacked 0 = .ok decls ∧
          dataSection = String.intercalate "\n\n" decls ++ "\n\n" ++ framesIndexStr framesPacked) ∧
        preU ≠ preA ∧ postU ≠ postA := by
  obtain ⟨decls, hdec, hU⟩ := generate_ok framesPacked width height fps .u8g2 h1 h2
  obtain ⟨decls2, hdec2, hA⟩ :=
    generate_ok framesPacked width height fps .adafruit_gfx_ssd1306 h1 h2
  rw [hdec] at hdec2
  obtain rfl : decls = decls2 := (Except.ok.injEq _ _).mp hdec2
  refine ⟨String.intercalate "\n\n" decls ++ "\n\n" ++ framesIndexStr framesPacked,
    preambleOf .u8g2 width height,
    countDelaySep ++ toString (frameDelay fps) ++ tailOf .u8g2,
    preambleOf .adafruit_gfx_ssd1306 width height,
    countDelaySep ++ toString (frameDelay fps) ++ tailOf .adafruit_gfx_ssd1306,
    ?_, ?_, ⟨decls, hdec, rfl⟩, ?_, ?_⟩
  · rw [hU]
    exact congrArg Except.ok (by simp only [strAppend_assoc])
  · rw [hA]
    exact congrArg Except.ok (by simp only [strAppend_assoc])
  · simp only [preambleOf, reduceIte]
    rw [show u8g2Pre1 = "#include <U" ++ "8g2lib.h>\n#include <Wire.h>\n\n#define SCREEN_WIDTH "
        from by decide,
      show ssd1306Pre1 =
          "#include <W" ++ "ire.h>\n#include <Adafruit_GFX.h>\n#include <Adafruit_SSD1306.h>\n\n#define SCREEN_WIDTH "
        from by decide]
    simp only [strAppend_assoc]
    exact str_prefix_ne _ _ _ _ (by decide) (by decide)
  · simp only [tailOf, reduceIte, strAppend_assoc]
    exact str_append_left_cancel_ne countDelaySep
      (str_append_left_cancel_ne (toString (frameDelay fps)) (by decide))

theorem C8_library_switch_witness :
    ∃ dataSection preU postU preA postA : String,
      generateArduinoCode [[0]] 1 1 5 .u8g2 = .ok (preU ++ dataSection ++ postU) ∧
        generateArduinoCode [[0]] 1 1 5 .adafruit_gfx_ssd1306 =
          .ok (preA ++ dataSection ++ postA) ∧
        (∃ decls, frameDecls [[0]] 0 = .ok decls ∧
          dataSection = String.intercalate "\n\n" decls ++ "\n\n" ++ framesIndexStr [[0]]) ∧
        preU ≠ preA ∧ postU ≠ postA :=
  C8_library_switch [[0]] 1 1 5 (by decide) (by decide)

/-! ### Claim C10 -/

/-- C10: the SSD1306 template (reached by `adafruit_gfx_ssd1306` and by
every library value other than `u8g2` and `adafruit_gfx_ssd1331`) blits
each frame with the doubled member access
`display.display.drawXBitmap(…, 1);`, while the u8g2 template uses
`u8g2.drawXBMP(…)` and the SSD1331 template `display.drawXBitmap(…, 0xFFFF);`
directly on the display object. -/
theorem C10_blit_statements (framesPacked : List (List ℕ)) (width height : ℕ) (fps : ℚ)
    (h1 : framesPacked ≠ []) (h2 : ∀ f ∈ framesPacked, f ≠ []) :
    (∀ library : Library, library ≠ .u8g2 → library ≠ .adafruit_gfx_ssd1331 →
        generateArduinoCode framesPacked width height fps library =
          generateArduinoCode framesPacked width height fps .adafruit_gfx_ssd1306) ∧
      (∃ A B, generateArduinoCode framesPacked width height fps .adafruit_gfx_ssd1306 =
        .ok (A ++ "display.display.drawXBitmap(0, 0, (const uint8_t*)pgm_read_ptr(&frames[frame]), SCREEN_WIDTH, SCREEN_HEIGHT, 1);" ++ B)) ∧
      (∃ A B, generateArduinoCode framesPacked width height fps .u8g2 =
        .ok (A ++ "u8g2.drawXBMP(0, 0, SCREEN_WIDTH, SCREEN_HEIGHT, (const uint8_t*)pgm_read_ptr(&frames[frame]));" ++ B)) ∧
      (∃ A B, generateArduinoCode framesPacked width height fps .adafruit_gfx_ssd1331 =
        .ok (A ++ "display.drawXBitmap(0, 0, (const uint8_t*)pgm_read_ptr(&frames[frame]), SCREEN_WIDTH, SCREEN_HEIGHT, 0xFFFF);" ++ B)) := by
  refine ⟨?_, ?_, ?_, ?_⟩
  · intro library hu h31
    cases library with
    | adafruit_gfx_ssd1306 => rfl
    | adafruit_gfx_ssd1331 => exact absurd rfl h31
    | u8g2 => exact absurd rfl hu
  · obtain ⟨decls, hdec, hok⟩ :=
      generate_ok framesPacked width height fps .adafruit_gfx_ssd1306 h1 h2
    refine ⟨preambleOf .adafruit_gfx_ssd1306 width height
        ++ String.intercalate "\n\n" decls ++ "\n\n" ++ framesIndexStr framesPacked
        ++ countDelaySep ++ toString (frameDelay fps) ++ ";\n\nvoid setup() \x7b\n  Serial.begin(115200);\n  \n  if (!display.begin(SSD1306_SWITCHCAPVCC, 0x3C)) \x7b\n    Serial.println(F(\"SSD1306 allocation failed\"));\n    for(;;);\n  \x7d\n  \n  display.clearDisplay();\n  display.display();\n\x7d\n\nvoid loop() \x7b\n  while (true) \x7b\n    for (int frame = 0; frame < FRAME_COUNT; frame++) \x7b\n      unsigned long start = millis();\n      \n      display.clearDisplay();\n      ", "\n      display.display();\n      \n      while (millis() - start < FRAME_DELAY) \x7b\n      \x7d\n    \x7d\n  \x7d\n\x7d\n", ?_⟩
    rw [hok, show tailOf .adafruit_gfx_ssd1306 = ";\n\nvoid setup() \x7b\n  Serial.begin(115200);\n  \n  if (!display.begin(SSD1306_SWITCHCAPVCC, 0x3C)) \x7b\n    Serial.println(F(\"SSD1306 allocation failed\"));\n    for(;;);\n  \x7d\n  \n  display.clearDisplay();\n  display.display();\n\x7d\n\nvoid loop() \x7b\n  while (true) \x7b\n    for (int frame = 0; frame < FRAME_COUNT; frame++) \x7b\n      unsigned long start = millis();\n      \n      display.clearDisplay();\n      " ++ ("display.display.drawXBitmap(0, 0, (const uint8_t*)pgm_read_ptr(&frames[frame]), SCREEN_WIDTH, SCREEN_HEIGHT, 1);" ++ "\n      display.display();\n      \n      while (millis() - start < FRAME_DELAY) \x7b\n      \x7d\n    \x7d\n  \x7d\n\x7d\n") from by decide]
    exact congrArg Except.ok (by simp only [strAppend_assoc])
  · obtain ⟨decls, hdec, hok⟩ := generate_ok framesPacked width height fps .u8g2 h1 h2
    refine ⟨preambleOf .u8g2 width height
        ++ String.intercalate "\n\n" decls ++ "\n\n" ++ framesIndexStr framesPacked
        ++ countDelaySep ++ toString (frameDelay fps) ++ ";\n\nvoid setup() \x7b\n  Serial.begin(115200);\n  u8g2.begin();\n  u8g2.clearBuffer();\n  u8g2.sendBuffer();\n\x7d\n\nvoid loop() \x7b\n  while (true) \x7b\n    for (int frame = 0; frame < FRAME_COUNT; frame++) \x7b\n      unsigned long start = millis();\n      \n      u8g2.firstPage();\n      do \x7b\n        ", "\n      \x7d while (u8g2.nextPage());\n      \n      while (millis() - start < FRAME_DELAY) \x7b\n      \x7d\n    \x7d\n  \x7d\n\x7d\n", ?_⟩
    rw [hok, show tailOf .u8g2 = ";\n\nvoid setup() \x7b\n  Serial.begin(115200);\n  u8g2.begin();\n  u8g2.clearBuffer();\n  u8g2.sendBuffer();\n\x7d\n\nvoid loop() \x7b\n  while (true) \x7b\n    for (int frame = 0; frame < FRAME_COUNT; frame++) \x7b\n      unsigned long start = millis();\n      \n      u8g2.firstPage();\n      do \x7b\n        " ++ ("u8g2.drawXBMP(0, 0, SCREEN_WIDTH, SCREEN_HEIGHT, (const uint8_t*)pgm_read_ptr(&frames[frame]));" ++ "\n      \x7d while (u8g2.nextPage());\n      \n      while (millis() - start < FRAME_DELAY) \x7b\n      \x7d\n    \x7d\n  \x7d\n\x7d\n") from by decide]
    exact congrArg Except.ok (by simp only [strAppend_assoc])
  · obtain ⟨decls, hdec, hok⟩ :=
      generate_ok framesPacked width height fps .adafruit_gfx_ssd1331 h1 h2
    refine ⟨preambleOf .adafruit_gfx_ssd1331 width height
        ++ String.intercalate "\n\n" decls ++ "\n\n" ++ framesIndexStr framesPacked
        ++ countDelaySep ++ toString (frameDelay fps) ++ ";\n\nvoid setup() \x7b\n  Serial.begin(115200);\n  display.begin();\n  display.fillScreen(0x0000);\n\x7d\n\nvoid loop() \x7b\n  while (true) \x7b\n    for (int frame = 0; frame < FRAME_COUNT; frame++) \x7b\n      unsigned long start = millis();\n      \n      display.fillScreen(0x0000);\n      ", "\n      \n      while (millis() - start < FRAME_DELAY) \x7b\n      \x7d\n    \x7d\n  \x7d\n\x7d\n", ?_⟩
    rw [hok, show tailOf .adafruit_gfx_ssd1331 = ";\n\nvoid setup() \x7b\n  Serial.begin(115200);\n  display.begin();\n  display.fillScreen(0x0000);\n\x7d\n\nvoid loop() \x7b\n  while (true) \x7b\n    for (int frame = 0; frame < FRAME_COUNT; frame++) \x7b\n      unsigned long start = millis();\n      \n      display.fillScreen(0x0000);\n      " ++ ("display.drawXBitmap(0, 0, (const uint8_t*)pgm_read_ptr(&frames[frame]), SCREEN_WIDTH, SCREEN_HEIGHT, 0xFFFF);" ++ "\n      \n      while (millis() - start < FRAME_DELAY) \x7b\n      \x7d\n    \x7d\n  \x7d\n\x7d\n") from by decide]
    exact congrArg Except.ok (by simp only [strAppend_assoc])

theorem C10_blit_statements_witness :
    (∀ library : Library, library ≠ .u8g2 → library ≠ .adafruit_gfx_ssd1331 →
        generateArduinoCode [[0]] 1 1 5 library =
          generateArduinoCode [[0]] 1 1 5 .adafruit_gfx_ssd1306) ∧
      (∃ A B, generateArduinoCode [[0]] 1 1 5 .adafruit_gfx_ssd1306 =
        .ok (A ++ "display.display.drawXBitmap(0, 0, (const uint8_t*)pgm_read_ptr(&frames[frame]), SCREEN_WIDTH, SCREEN_HEIGHT, 1);" ++ B)) ∧
      (∃ A B, generateArduinoCode [[0]] 1 1 5 .u8g2 =
        .ok (A ++ "u8g2.drawXBMP(0, 0, SCREEN_WIDTH, SCREEN_HEIGHT, (const uint8_t*)pgm_read_ptr(&frames[frame]));" ++ B)) ∧
      (∃ A B, generateArduinoCode [[0]] 1 1 5 .adafruit_gfx_ssd1331 =
        .ok (A ++ "display.drawXBitmap(0, 0, (const uint8_t*)pgm_read_ptr(&frames[frame]), SCREEN_WIDTH, SCREEN_HEIGHT, 0xFFFF);" ++ B)) :=
  C10_blit_statements [[0]] 1 1 5 (by decide) (by decide)


/-! ### Claim C1 -/

theorem orBitAt_length (out : List ℕ) (i0 p0 : ℕ) : (orBitAt out i0 p0).length = out.length :=
  List.length_set out i0 _

theorem packStep_length (bits : List ℕ) (w bpr : ℕ) (out : List ℕ) (yx : ℕ × ℕ) :
    (packStep bits w bpr out yx).length = out.length := by
  unfold packStep
  split
  · exact orBitAt_length out _ _
  · rfl

theorem foldl_packStep_length (bits : List ℕ) (w bpr : ℕ) :
    ∀ (L : List (ℕ × ℕ)) (out : List ℕ),
      (L.foldl (packStep bits w bpr) out).length = out.length := by
  intro L
  induction L with
  | nil => intro out; rfl
  | cons yx L ih => intro out; rw [List.foldl_cons, ih, packStep_length]

theorem orBitAt_getD (out : List ℕ) (i0 p0 i : ℕ) :
    (orBitAt out i0 p0).getD i 0 =
      if i = i0 ∧ i0 < out.length then out.getD i 0 ||| 1 <<< p0 else out.getD i 0 := by
  unfold orBitAt
  rcases Decidable.em (i = i0) with rfl | hne
  · rcases Decidable.em (i < out.length) with hlt | hge
    · rw [if_pos ⟨rfl, hlt⟩]
      simp [List.getD_eq_getElem?_getD, List.getElem?_set_self hlt,
        List.getElem?_eq_getElem hlt]
    · rw [if_neg (fun hcc => hge hcc.2)]
      rw [List.set_eq_of_length_le (by omega)]
  · rw [if_neg (fun hcc => hne hcc.1)]
    rw [List.getD_eq_getElem?_getD, List.getElem?_set_ne (fun hcc => hne hcc.symm),
      ← List.getD_eq_getElem?_getD]

theorem packStep_getD_testBit (bits : List ℕ) (w bpr : ℕ) (out : List ℕ) (yx : ℕ × ℕ)
    (i p : ℕ) (hi : i < out.length) :
    (((packStep bits w bpr out yx).getD i 0).testBit p = true ↔
      ((out.getD i 0).testBit p = true ∨
        (bits.getD (yx.1 * w + yx.2) 0 ≠ 0 ∧ yx.1 * bpr + yx.2 / 8 = i ∧ yx.2 % 8 = p))) := by
  unfold packStep
  split
  · rename_i hbit
    rw [orBitAt_getD]
    by_cases hc : i = yx.1 * bpr + yx.2 / 8
    · rw [if_pos ⟨hc, hc ▸ hi⟩]
      rw [Nat.testBit_or, Nat.shiftLeft_eq, one_mul, Nat.testBit_two_pow]
      simp only [Bool.or_eq_true, decide_eq_true_eq]
      constructor
      · rintro (h | h)
        · exact Or.inl h
        · exact Or.inr ⟨hbit, hc.symm, h⟩
      · rintro (h | ⟨_, _, hp⟩)
        · exact Or.inl h
        · exact Or.inr hp
    · rw [if_neg (fun hcc => hc hcc.1)]
      constructor
      · exact fun h => Or.inl h
      · rintro (h | ⟨_, hidx, _⟩)
        · exact h
        · exact absurd hidx.symm hc
  · rename_i hbit
    constructor
    · exact fun h => Or.inl h
    · rintro (h | ⟨hb, _, _⟩)
      · exact h
      · exact absurd hb hbit

theorem foldl_packStep_testBit (bits : List ℕ) (w bpr : ℕ) :
    ∀ (L : List (ℕ × ℕ)) (out : List ℕ) (i p : ℕ), i < out.length →
      (((L.foldl (packStep bits w bpr) out).getD i 0).testBit p = true ↔
        ((out.getD i 0).testBit p = true ∨
          ∃ yx ∈ L, bits.getD (yx.1 * w + yx.2) 0 ≠ 0 ∧
            yx.1 * bpr + yx.2 / 8 = i ∧ yx.2 % 8 = p)) := by
  intro L
  induction L with
  | nil => intro out i p hi; simp
  | cons yx L ih =>
      intro out i p hi
      rw [List.foldl_cons,
        ih (packStep bits w bpr out yx) i p (by rw [packStep_length]; exact hi),
        packStep_getD_testBit bits w bpr out yx i p hi]
      simp only [List.mem_cons]
      constructor
      · rintro ((h | hy) | ⟨z, hz, hzz⟩)
        · exact Or.inl h
        · exact Or.inr ⟨yx, Or.inl rfl, hy⟩
        · exact Or.inr ⟨z, Or.inr hz, hzz⟩
      · rintro (h | ⟨z, (rfl | hz), hzz⟩)
        · exact Or.inl (Or.inl h)
        · exact Or.inl (Or.inr hzz)
        · exact Or.inr ⟨z, hz, hzz⟩

theorem mem_coords (h w : ℕ) (yx : ℕ × ℕ) : yx ∈ coords h w ↔ yx.1 < h ∧ yx.2 < w := by
  rcases yx with ⟨y, x⟩
  constructor
  · intro hm
    simp only [coords, List.mem_flatMap, List.mem_map, List.mem_range] at hm
    obtain ⟨y', hy', x', hx', he⟩ := hm
    obtain ⟨rfl, rfl⟩ := Prod.mk.injEq .. |>.mp he.symm
    exact ⟨hy', hx'⟩
  · rintro ⟨hy, hx⟩
    simp only [coords, List.mem_flatMap, List.mem_map, List.mem_range]
    exact ⟨y, hy, x, hx, rfl⟩

theorem replicate_getD_zero (n i : ℕ) : (List.replicate n (0 : ℕ)).getD i 0 = 0 := by
  rw [List.getD_eq_getElem?_getD]
  rcases lt_or_ge i n with hlt | hge
  · simp [List.getElem?_replicate, hlt]
  · rw [List.getElem?_eq_none (by simpa using hge)]
    rfl

theorem bytesPerRow_pos (w : ℕ) (hw : 0 < w) : 0 < (w + 7) / 8 := by omega

theorem div8_lt_bpr (w x : ℕ) (hx : x < w) : x / 8 < (w + 7) / 8 := by omega

theorem byteIndex_lt (w h x y : ℕ) (hx : x < w) (hy : y < h) :
    y * ((w + 7) / 8) + x / 8 < (w + 7) / 8 * h := by
  have hxb := div8_lt_bpr w x hx
  calc y * ((w + 7) / 8) + x / 8 < y * ((w + 7) / 8) + (w + 7) / 8 := by omega
    _ = (y + 1) * ((w + 7) / 8) := by ring
    _ ≤ h * ((w + 7) / 8) := Nat.mul_le_mul_right _ (by omega)
    _ = (w + 7) / 8 * h := Nat.mul_comm _ _

theorem linIndex_lt (w hh x y : ℕ) (hx : x < w) (hy : y < hh) : y * w + x < w * hh := by
  calc y * w + x < y * w + w := by omega
    _ = (y + 1) * w := by ring
    _ ≤ hh * w := Nat.mul_le_mul_right _ (by omega)
    _ = w * hh := Nat.mul_comm _ _

theorem byte_unique (bpr a r b s : ℕ) (hbpos : 0 < bpr) (hr : r < bpr) (hs : s < bpr)
    (heq : a * bpr + r = b * bpr + s) : a = b ∧ r = s := by
  have e1 : (a * bpr + r) / bpr = a := by
    rw [Nat.mul_comm a bpr, Nat.mul_add_div hbpos, Nat.div_eq_of_lt hr, Nat.add_zero]
  have e2 : (b * bpr + s) / bpr = b := by
    rw [Nat.mul_comm b bpr, Nat.mul_add_div hbpos, Nat.div_eq_of_lt hs, Nat.add_zero]
  have hab : a = b := by rw [← e1, ← e2, heq]
  subst hab
  exact ⟨rfl, by omega⟩

theorem coord_unique (w x y x2 y2 : ℕ) (hw : 0 < w) (hx : x < w) (hx2 : x2 < w)
    (hidx : y2 * ((w + 7) / 8) + x2 / 8 = y * ((w + 7) / 8) + x / 8)
    (hbit : x2 % 8 = x % 8) : y2 = y ∧ x2 = x := by
  obtain ⟨hy, hd⟩ := byte_unique ((w + 7) / 8) y2 (x2 / 8) y (x / 8)
    (bytesPerRow_pos w hw) (div8_lt_bpr w x2 hx2) (div8_lt_bpr w x hx) hidx
  exact ⟨hy, by omega⟩

/-- C1: for a 0/1 `MonoFrame` of size `width × height`, `packRowMajor`
returns exactly `ceil(width/8) * height` bytes regardless of content;
bit `x % 8` (LSB = leftmost) of byte `y * ceil(width/8) + x / 8` equals
the mono value at `(x, y)`; and in each row's last byte every bit
position at or above `width % 8` is 0 when `width` is not a multiple
of 8. -/
theorem C1_pack_roundtrip (bits : List ℕ) (w h : ℕ) (hw : 0 < w) (hh : 0 < h)
    (hlen : bits.length = w * h) (h01 : ∀ b ∈ bits, b = 0 ∨ b = 1) :
    (packRowMajor bits w h).length = (w + 7) / 8 * h ∧
      (∀ x y, x < w → y < h →
        (((packRowMajor bits w h).getD (y * ((w + 7) / 8) + x / 8) 0).testBit (x % 8) = true ↔
          bits.getD (y * w + x) 0 = 1)) ∧
      ∀ y p, y < h → w % 8 ≠ 0 → w % 8 ≤ p →
        ((packRowMajor bits w h).getD
          (y * ((w + 7) / 8) + ((w + 7) / 8 - 1)) 0).testBit p = false := by
  refine ⟨?_, ?_, ?_⟩
  · unfold packRowMajor
    rw [foldl_packStep_length, List.length_replicate]
  · intro x y hx hy
    have hi : y * ((w + 7) / 8) + x / 8 < (w + 7) / 8 * h := byteIndex_lt w h x y hx hy
    unfold packRowMajor
    rw [foldl_packStep_testBit bits w ((w + 7) / 8) (coords h w) _ _ _
      (by rw [List.length_replicate]; exact hi)]
    rw [replicate_getD_zero, Nat.zero_testBit]
    simp only [Bool.false_eq_true, false_or]
    constructor
    · rintro ⟨⟨y2, x2⟩, hmem, hbitv, hidx, hp⟩
      obtain ⟨hy2, hx2⟩ := (mem_coords h w _).mp hmem
      obtain ⟨hye, hxe⟩ := coord_unique w x y x2 y2 hw hx hx2 hidx hp
      rw [hye, hxe] at hbitv
      have hin : y * w + x < bits.length := by rw [hlen]; exact linIndex_lt w h x y hx hy
      have hmemb : bits.getD (y * w + x) 0 ∈ bits := by
        rw [List.getD_eq_getElem bits 0 hin]
        exact List.getElem_mem hin
      rcases h01 _ hmemb with h0 | h1
      · exact absurd h0 hbitv
      · exact h1
    · intro h1
      refine ⟨(y, x), (mem_coords h w (y, x)).mpr ⟨hy, hx⟩, ?_, rfl, rfl⟩
      rw [h1]
      norm_num
  · intro y p hy hmod hple
    have hipos : y * ((w + 7) / 8) + ((w + 7) / 8 - 1) < (w + 7) / 8 * h := by
      have hbpos := bytesPerRow_pos w hw
      calc y * ((w + 7) / 8) + ((w + 7) / 8 - 1) < y * ((w + 7) / 8) + (w + 7) / 8 := by omega
        _ = (y + 1) * ((w + 7) / 8) := by ring
        _ ≤ h * ((w + 7) / 8) := Nat.mul_le_mul_right _ (by omega)
        _ = (w + 7) / 8 * h := Nat.mul_comm _ _
    by_contra hbt
    rw [Bool.not_eq_false] at hbt
    unfold packRowMajor at hbt
    rw [foldl_packStep_testBit bits w ((w + 7) / 8) (coords h w) _ _ _
      (by rw [List.length_replicate]; exact hipos)] at hbt
    rw [replicate_getD_zero, Nat.zero_testBit] at hbt
    simp only [Bool.false_eq_true, false_or] at hbt
    obtain ⟨⟨y2, x2⟩, hmem, hbitv, hidx, hp⟩ := hbt
    obtain ⟨hy2, hx2⟩ := (mem_coords h w _).mp hmem
    obtain ⟨hye, hxd⟩ := byte_unique ((w + 7) / 8) y2 (x2 / 8) y ((w + 7) / 8 - 1)
      (bytesPerRow_pos w hw) (div8_lt_bpr w x2 hx2) (by omega) hidx
    omega

theorem C1_pack_roundtrip_witness :
    (0 < 3 ∧ 0 < 2 ∧ ([1, 0, 1, 0, 1, 1] : List ℕ).length = 3 * 2 ∧
        ∀ b ∈ ([1, 0, 1, 0, 1, 1] : List ℕ), b = 0 ∨ b = 1) ∧
      ((packRowMajor [1, 0, 1, 0, 1, 1] 3 2).length = (3 + 7) / 8 * 2 ∧
        (∀ x y, x < 3 → y < 2 →
          (((packRowMajor [1, 0, 1, 0, 1, 1] 3 2).getD (y * ((3 + 7) / 8) + x / 8) 0).testBit
              (x % 8) = true ↔
            ([1, 0, 1, 0, 1, 1] : List ℕ).getD (y * 3 + x) 0 = 1)) ∧
        ∀ y p, y < 2 → 3 % 8 ≠ 0 → 3 % 8 ≤ p →
          ((packRowMajor [1, 0, 1, 0, 1, 1] 3 2).getD
            (y * ((3 + 7) / 8) + ((3 + 7) / 8 - 1)) 0).testBit p = false) :=
  ⟨⟨by decide, by decide, by decide, by decide⟩,
    C1_pack_roundtrip [1, 0, 1, 0, 1, 1] 3 2 (by decide) (by decide) (by decide) (by decide)⟩

/-! ### Claim C3 -/

theorem hexByte_eq_spec : ∀ b, b < 256 → hexByte b = specHexByte b := by decide

theorem specHexByte_props :
    ∀ b, b < 256 → isHexByteLit (specHexByte b) = true ∧
      decodeHexByteLit (specHexByte b) = some b := by decide

theorem hexLinesGo_nil : ∀ fuel, hexLinesGo fuel [] = [] := by
  intro fuel
  cases fuel <;> rfl

theorem chunks16Go_nil {α : Type} : ∀ fuel, chunks16Go (α := α) fuel [] = [] := by
  intro fuel
  cases fuel <;> rfl

theorem str_append_empty (s : String) : s ++ "" = s := by
  apply str_data_inj
  rw [str_append_data]
  exact List.append_nil _

theorem hexLinesGo_renderChunks :
    ∀ (fuel : ℕ) (l : List String), l.length ≤ fuel →
      hexLinesGo fuel l = renderChunks (chunks16Go fuel l) := by
  intro fuel
  induction fuel with
  | zero =>
      intro l hl
      obtain rfl : l = [] := List.eq_nil_of_length_eq_zero (by omega)
      rfl
  | succ n ih =>
      intro l hl
      match l with
      | [] => rfl
      | x :: xs =>
          simp only [hexLinesGo, chunks16Go]
          by_cases hle : xs.length + 1 ≤ 16
          · rw [if_pos hle]
            have hdrop : (x :: xs).drop 16 = [] :=
              List.drop_eq_nil_of_le (by simpa using hle)
            rw [hdrop, hexLinesGo_nil, chunks16Go_nil, str_append_empty]
            rfl
          · rw [if_neg hle]
            have hne : (x :: xs).drop 16 ≠ [] := by
              intro hd
              have := congrArg List.length hd
              simp only [List.length_drop, List.length_cons, List.length_nil] at this
              omega
            have hlen : ((x :: xs).drop 16).length ≤ n := by
              simp only [List.length_drop, List.length_cons]
              simp only [List.length_cons] at hl
              omega
            rw [ih _ hlen]
            have hcne : chunks16Go n ((x :: xs).drop 16) ≠ [] := by
              obtain ⟨c, cs, hcs⟩ := List.exists_cons_of_ne_nil hne
              cases n with
              | zero =>
                  exfalso
                  rw [hcs] at hlen
                  simp at hlen
              | succ m =>
                  rw [hcs]
                  simp [chunks16Go]
            obtain ⟨c2, cs2, hcs2⟩ := List.exists_cons_of_ne_nil hcne
            rw [hcs2]
            rfl

theorem hexLines_renderChunks (l : List String) : hexLines l = renderChunks (chunks16 l) :=
  hexLinesGo_renderChunks l.length l (le_refl _)

theorem chunks16Go_flatten {α : Type} :
    ∀ (fuel : ℕ) (l : List α), l.length ≤ fuel → (chunks16Go fuel l).flatten = l := by
  intro fuel
  induction fuel with
  | zero =>
      intro l hl
      obtain rfl : l = [] := List.eq_nil_of_length_eq_zero (by omega)
      rfl
  | succ n ih =>
      intro l hl
      match l with
      | [] => rfl
      | x :: xs =>
          simp only [chunks16Go, List.flatten_cons]
          have hlen : ((x :: xs).drop 16).length ≤ n := by
            simp only [List.length_drop, List.length_cons]
            simp only [List.length_cons] at hl
            omega
          rw [ih _ hlen]
          exact List.take_append_drop 16 (x :: xs)

theorem chunks16Go_mem {α : Type} :
    ∀ (fuel : ℕ) (l : List α), l.length ≤ fuel →
      ∀ c ∈ chunks16Go fuel l, c ≠ [] ∧ c.length ≤ 16 := by
  intro fuel
  induction fuel with
  | zero =>
      intro l hl c hc
      obtain rfl : l = [] := List.eq_nil_of_length_eq_zero (by omega)
      simp [chunks16Go] at hc
  | succ n ih =>
      intro l hl c hc
      match l with
      | [] => simp [chunks16Go] at hc
      | x :: xs =>
          simp only [chunks16Go, List.mem_cons] at hc
          have hlen : ((x :: xs).drop 16).length ≤ n := by
            simp only [List.length_drop, List.length_cons]
            simp only [List.length_cons] at hl
            omega
          rcases hc with rfl | hc'
          · refine ⟨?_, ?_⟩
            · rw [List.take_cons (by norm_num : 0 < 16)]
              exact List.cons_ne_nil _ _
            · rw [List.length_take]
              exact min_le_left _ _
          · exact ih _ hlen c hc'

theorem chunks16Go_dropLast {α : Type} :
    ∀ (fuel : ℕ) (l : List α), l.length ≤ fuel →
      ∀ c ∈ (chunks16Go fuel l).dropLast, c.length = 16 := by
  intro fuel
  induction fuel with
  | zero =>
      intro l hl c hc
      obtain rfl : l = [] := List.eq_nil_of_length_eq_zero (by omega)
      simp [chunks16Go] at hc
  | succ n ih =>
      intro l hl c hc
      match l with
      | [] => simp [chunks16Go] at hc
      | x :: xs =>
          simp only [chunks16Go] at hc
          by_cases hdn : (x :: xs).drop 16 = []
          · rw [hdn, chunks16Go_nil] at hc
            simp at hc
          · have hlen : ((x :: xs).drop 16).length ≤ n := by
              simp only [List.length_drop, List.length_cons]
              simp only [List.length_cons] at hl
              omega
            have hcne : chunks16Go n ((x :: xs).drop 16) ≠ [] := by
              obtain ⟨cc, ccs, hccs⟩ := List.exists_cons_of_ne_nil hdn
              cases n with
              | zero =>
                  exfalso
                  rw [hccs] at hlen
                  simp at hlen
              | succ m =>
                  rw [hccs]
                  simp [chunks16Go]
            rw [List.dropLast_cons_of_ne_nil hcne, List.mem_cons] at hc
            rcases hc with rfl | hc'
            · have h17 : 16 < (x :: xs).length := by
                by_contra h16
                exact hdn (List.drop_eq_nil_of_le (by omega))
              rw [List.length_take]
              omega
            · exact ih _ hlen c hc'

theorem frameDecl_eq_spec (idx : ℕ) (fd : List ℕ) (hbyte : ∀ b ∈ fd, b < 256) :
    frameDecl idx fd = "const uint8_t PROGMEM frame_" ++ toString idx ++ "["
      ++ toString fd.length ++ "] = \x7b\n"
      ++ String.intercalate "\n" (renderChunks (chunks16 (fd.map specHexByte)))
      ++ "\n\x7d;" := by
  unfold frameDecl
  rw [show fd.map hexByte = fd.map specHexByte from
    List.map_congr_left fun b hb => hexByte_eq_spec b (hbyte b hb)]
  rw [hexLines_renderChunks]

theorem mapIdx_const (g : ℕ → String) :
    ∀ (l : List (List ℕ)), (l.mapIdx fun i _ => g i) = (List.range l.length).map g := by
  intro l
  induction l generalizing g with
  | nil => rfl
  | cons x xs ih =>
      rw [List.mapIdx_cons, List.length_cons, List.range_succ_eq_map, List.map_cons,
        List.map_map, ih fun i => g (i + 1)]
      exact congrArg (g 0 :: ·) (List.map_congr_left fun a _ => rfl)

theorem framesIndexStr_eq (framesPacked : List (List ℕ)) :
    framesIndexStr framesPacked = "const uint8_t* const frames[] PROGMEM = \x7b\n  "
      ++ String.intercalate ", "
        ((List.range framesPacked.length).map fun i => "frame_" ++ toString i)
      ++ "\n\x7d;" := by
  unfold framesIndexStr
  rw [mapIdx_const]

theorem frameDecls_get :
    ∀ (l : List (List ℕ)) (idx : ℕ), (∀ f ∈ l, f ≠ []) →
      ∃ ds, frameDecls l idx = .ok ds ∧ ds.length = l.length ∧
        ∀ i, i < l.length → ds.getD i "" = frameDecl (idx + i) (l.getD i []) := by
  intro l
  induction l with
  | nil => exact fun idx _ => ⟨[], rfl, rfl, fun i hi => absurd hi (by simp)⟩
  | cons fd rest ih =>
      intro idx hall
      obtain ⟨ds, hds, hlen, hget⟩ := ih (idx + 1) fun f hf => hall f (List.mem_cons_of_mem _ hf)
      have hfd : fd ≠ [] := hall fd (List.mem_cons_self _ _)
      refine ⟨frameDecl idx fd :: ds, ?_, by simp [hlen], ?_⟩
      · simp only [frameDecls]
        rw [if_neg fun h0 => hfd (List.length_eq_zero.mp h0), hds]
      · intro i hi
        cases i with
        | zero => simp [List.getD]
        | succ j =>
            have hj := hget j (by simpa using hi)
            have e : idx + 1 + j = idx + (j + 1) := by omega
            rw [e] at hj
            simpa [List.getD] using hj

/-- C3: the generated text declares exactly one array per frame, named
`frame_0 … frame_{n-1}` in original order, each with explicit declared
length equal to that frame's byte count and a `PROGMEM` annotation, each
byte rendered as a (decodable) two-digit uppercase `0xNN` hex literal,
16 values per line with a trailing comma on every line but the last and
none after the final value; then a single `frames[]` pointer index array
listing the frames in order with the same annotation; and the emitted
frame count is the expression `sizeof(frames) / sizeof(frames[0])`, not
a numeric literal (`C3Spec` spells out all of these parts). -/
theorem C3_generated_arrays (framesPacked : List (List ℕ)) (width height : ℕ) (fps : ℚ)
    (library : Library) (h1 : framesPacked ≠ []) (h2 : ∀ f ∈ framesPacked, f ≠ [])
    (h3 : ∀ f ∈ framesPacked, ∀ b ∈ f, b < 256) :
    C3Spec framesPacked width height fps library := by
  obtain ⟨decls, hdec, hok⟩ := generate_ok framesPacked width height fps library h1 h2
  obtain ⟨ds, hds, hdlen, hdget⟩ := frameDecls_get framesPacked 0 h2
  rw [hds] at hdec
  obtain rfl : ds = decls := (Except.ok.injEq _ _).mp hdec
  have hmemD : ∀ i, i < framesPacked.length → framesPacked.getD i [] ∈ framesPacked := by
    intro i hi
    rw [List.getD_eq_getElem framesPacked [] hi]
    exact List.getElem_mem hi
  refine ⟨_, ds, hok, hds, hdlen, ?_, ?_, ?_, framesIndexStr_eq framesPacked, rfl, ?_⟩
  · intro i hi
    rw [hdget i hi, Nat.zero_add]
    exact frameDecl_eq_spec i (framesPacked.getD i []) (h3 _ (hmemD i hi))
  · intro i hi b hb
    exact specHexByte_props b (h3 _ (hmemD i hi) b hb)
  · intro i hi
    refine ⟨chunks16Go_flatten _ _ (le_refl _), ?_, ?_⟩
    · exact fun c hc => chunks16Go_mem _ _ (le_refl _) c hc
    · exact fun c hc => chunks16Go_dropLast _ _ (le_refl _) c hc
  · refine ⟨preambleOf library width height ++ String.intercalate "\n\n" ds ++ "\n\n"
      ++ framesIndexStr framesPacked ++ "\n\n",
      "\nconst int FRAME_DELAY = " ++ toString (frameDelay fps) ++ tailOf library, ?_⟩
    rw [show countDelaySep = "\n\n" ++
      ("const int FRAME_COUNT = sizeof(frames) / sizeof(frames[0]);"
        ++ "\nconst int FRAME_DELAY = ") from by decide]
    simp only [strAppend_assoc]

theorem C3_generated_arrays_witness :
    (([[0, 255], [17]] : List (List ℕ)) ≠ [] ∧
        (∀ f ∈ ([[0, 255], [17]] : List (List ℕ)), f ≠ []) ∧
        ∀ f ∈ ([[0, 255], [17]] : List (List ℕ)), ∀ b ∈ f, b < 256) ∧
      C3Spec [[0, 255], [17]] 1 1 5 .u8g2 :=
  ⟨⟨by decide, by decide, by decide⟩,
    C3_generated_arrays [[0, 255], [17]] 1 1 5 .u8g2 (by decide) (by decide) (by decide)⟩

end VideoToOled
